import Mathlib

/-!
Shallow embedding of the CS1998 source-rewriting scripts of this repository
(`scripts/fix_cs1998_v2.py`, `scripts/fix_cs1998.py`,
`scripts/fix_cs1998_pragmas.py`), followed by theorems settling the
specification claims about them.

Conventions.  A file is a `List String` of lines, each keeping its trailing
newline: exactly the `content.splitlines(keepends=True)` / `f.readlines()`
state the Python code operates on.  Characters are treated at their ASCII
behaviour (the inputs these scripts process are ASCII; Python's
`str.isalnum` / `str.isspace` / `str.strip` are modelled on that range, and
`str.splitlines` is modelled on its ASCII line terminators).  Python
while-loops that advance an index by one or more positions per iteration
are modelled with a fuel parameter initialised above the input length, so
the fuel can never run out on the wrapped call.  Regular-expression calls
(`re.sub`, `re.search`, `re.match`) are modelled by explicit scanning
functions implementing the leftmost-match, greedy/lazy backtracking
semantics of the concrete patterns used in the scripts.
-/

set_option maxRecDepth 4000

/-- Double-quote character (written via its code to keep literals simple). -/
def dq : Char := Char.ofNat 34

/-- Single-quote character. -/
def sqc : Char := Char.ofNat 39

/-- Backslash character. -/
def bsl : Char := Char.ofNat 92

/-- Opening brace character. -/
def obr : Char := Char.ofNat 123

/-- Closing brace character. -/
def cbr : Char := Char.ofNat 125

/-- Python `str.isspace` on the ASCII whitespace characters. -/
def pyIsSpace (c : Char) : Bool :=
  c == ' ' || c == '\t' || c == '\n' || c == '\r' || c == '\x0b' || c == '\x0c'

/-- Word character for the regex `\b` boundary: letters, digits, underscore. -/
def isWordChar (c : Char) : Bool :=
  c.isAlphanum || c == '_'

/-- Python substring test `needle in haystack`. -/
def containsSub (needle : List Char) : List Char → Bool
  | [] => needle.isEmpty
  | c :: cs => needle.isPrefixOf (c :: cs) || containsSub needle cs

/-- Python `str.strip()` restricted to ASCII whitespace. -/
def pyStrip (l : List Char) : List Char :=
  ((l.dropWhile pyIsSpace).reverse.dropWhile pyIsSpace).reverse

/-- Length of the maximal whitespace run at the head of the list. -/
def wsRunLen (l : List Char) : Nat :=
  (l.takeWhile pyIsSpace).length

/-- Characters of the substring checked by `'async' in original_line`. -/
def asyncChars : List Char := "async".data

/-- Characters of the substring checked by `'Task ' in line`. -/
def taskSpaceChars : List Char := "Task ".data

/-- Characters of the substring checked by `'Task.FromResult' in value`. -/
def taskFromResultChars : List Char := "Task.FromResult".data

/-- Model of `re.sub(r'\basync\s+', '', line)`: scan left to right; at a word
boundary, the literal `async` followed by at least one whitespace character
is removed together with the whole whitespace run, and scanning resumes
after the removed span.  `wb` records whether the previous character is a
word character. -/
def removeAsyncAux : Nat → Bool → List Char → List Char
  | 0, _, l => l
  | fuel + 1, wb, 'a' :: 's' :: 'y' :: 'n' :: 'c' :: d :: rest =>
    if !wb && pyIsSpace d then
      removeAsyncAux fuel false ((d :: rest).dropWhile pyIsSpace)
    else
      'a' :: removeAsyncAux fuel true ('s' :: 'y' :: 'n' :: 'c' :: d :: rest)
  | fuel + 1, _, c :: cs => c :: removeAsyncAux fuel (isWordChar c) cs
  | _ + 1, _, [] => []

/-- Line after `re.sub(r'\basync\s+', '', line)`. -/
def removeAsync (s : String) : String :=
  String.mk (removeAsyncAux (s.data.length + 1) false s.data)

/-- Modelled from the spec: the async marker is the standalone keyword
`async` (at a word boundary) followed by whitespace, i.e. exactly an
occurrence that `re.sub(r'\basync\s+', '', ...)` would remove.  Used only
to state claims that speak of "the async marker" as the keyword, as opposed
to the code's substring test. -/
def asyncMarkerPresentAux : Nat → Bool → List Char → Bool
  | 0, _, _ => false
  | fuel + 1, wb, 'a' :: 's' :: 'y' :: 'n' :: 'c' :: d :: rest =>
    if !wb && pyIsSpace d then true
    else asyncMarkerPresentAux fuel true ('s' :: 'y' :: 'n' :: 'c' :: d :: rest)
  | fuel + 1, _, c :: cs => asyncMarkerPresentAux fuel (isWordChar c) cs
  | _ + 1, _, [] => false

/-- Whether a line carries the standalone `async` keyword marker. -/
def hasAsyncMarker (s : String) : Bool :=
  asyncMarkerPresentAux (s.data.length + 1) false s.data

/-- After `Task<` the pattern `(.+?)>` needs at least one non-newline
character and then a `>`, with no newline in between: search for a `>`
allowing any non-newline characters before it. -/
def gtSearch : List Char → Bool
  | [] => false
  | c :: cs => if c == '>' then true else if c == '\n' then false else gtSearch cs

/-- At least one non-newline character, then a `>` with no newline before
it (the tail condition of `Task<(.+?)>` after the literal `Task<`). -/
def gtAfterOne : List Char → Bool
  | [] => false
  | c :: cs => if c == '\n' then false else gtSearch cs

/-- Model of `re.search(r'Task<(.+?)>', line) is not None`. -/
def existsTaskGeneric : List Char → Bool
  | 'T' :: 'a' :: 's' :: 'k' :: '<' :: rest =>
    gtAfterOne rest || existsTaskGeneric ('a' :: 's' :: 'k' :: '<' :: rest)
  | _ :: cs => existsTaskGeneric cs
  | [] => false

/-- Model of `re.search(r'ValueTask<(.+?)>', line) is not None`. -/
def existsValueTaskGeneric : List Char → Bool
  | 'V' :: 'a' :: 'l' :: 'u' :: 'e' :: 'T' :: 'a' :: 's' :: 'k' :: '<' :: rest =>
    gtAfterOne rest || existsValueTaskGeneric ('a' :: 'l' :: 'u' :: 'e' :: 'T' :: 'a' :: 's' :: 'k' :: '<' :: rest)
  | _ :: cs => existsValueTaskGeneric cs
  | [] => false

/-- One line of `find_method_end`'s character loop (fix_cs1998_v2.py, lines
40-49): every `{` increments the count and sets `found_start`; every `}`
decrements it, and if `found_start` holds and the count is back to zero the
loop returns the current line index (`Sum.inl`); otherwise the final count
and flag are carried to the next line (`Sum.inr`). -/
def fmeLine : List Char → Int → Bool → Sum Unit (Int × Bool)
  | [], n, f => Sum.inr (n, f)
  | c :: cs, n, f =>
    if c == obr then fmeLine cs (n + 1) true
    else if c == cbr then
      if f && n - 1 == 0 then Sum.inl ()
      else fmeLine cs (n - 1) f
    else fmeLine cs n f

/-- Line loop of `find_method_end`, carrying the running index. -/
def findMethodEndAux : List String → Nat → Int → Bool → Option Nat
  | [], _, _, _ => none
  | l :: ls, i, n, f =>
    match fmeLine l.data n f with
    | Sum.inl () => some i
    | Sum.inr (n2, f2) => findMethodEndAux ls (i + 1) n2 f2

/-- `find_method_end(lines, start_idx)` of fix_cs1998_v2.py: find the line
of the brace closing the first opening brace at or after `startIdx`,
falling back to the last line index when none is found.  Note that it has
no lexical state: braces inside string literals and comments are counted. -/
def find_method_end (lines : List String) (startIdx : Nat) : Nat :=
  match findMethodEndAux (lines.drop startIdx) startIdx 0 false with
  | some i => i
  | none => lines.length - 1

/-- Instrumented twin of `find_method_end` that records the minimum value
attained by `brace_count` over the whole scan (same traversal, same stop
condition), used to state claims about the counter going negative.
`Sum.inl` carries the final minimum when the scan returns early. -/
def fmeMinLine : List Char → Int → Bool → Int → Sum Int (Int × Bool × Int)
  | [], n, f, m => Sum.inr (n, f, m)
  | c :: cs, n, f, m =>
    if c == obr then fmeMinLine cs (n + 1) true (min m (n + 1))
    else if c == cbr then
      if f && n - 1 == 0 then Sum.inl (min m (n - 1))
      else fmeMinLine cs (n - 1) f (min m (n - 1))
    else fmeMinLine cs n f m

/-- Line loop of the instrumented brace-count-minimum scan. -/
def braceMinAux : List String → Int → Bool → Int → Int
  | [], _, _, m => m
  | l :: ls, n, f, m =>
    match fmeMinLine l.data n f m with
    | Sum.inl m2 => m2
    | Sum.inr (n2, f2, m2) => braceMinAux ls n2 f2 m2

/-- Minimum brace count attained during `find_method_end`'s scan. -/
def braceCountMin (lines : List String) (startIdx : Nat) : Int :=
  braceMinAux (lines.drop startIdx) 0 false 0

/-- Lexical state of the return-value scanner of `fix_async_method`
(fix_cs1998_v2.py, lines 108-114). -/
structure RetSt where
  inStr : Bool
  inChr : Bool
  inVerb : Bool
  esc : Bool
  pd : Int
  bd : Int
  kd : Int

/-- Initial state of the return-value scanner. -/
def retSt0 : RetSt := ⟨false, false, false, false, 0, 0, 0⟩

/-- Inner while-loop of fix_cs1998_v2.py lines 116-180: scan the text after
a `return` keyword for the semicolon that ends the statement, respecting
strings, character literals, verbatim strings, escapes and nested
parentheses/braces/brackets.  Returns the consumed value characters and
the text after the semicolon, or `none` when the input ends first (in
which case the Python loop falls off the end and the outer loop stops). -/
def scanRetValue : RetSt → List Char → List Char → Option (List Char × List Char)
  | _, _, [] => none
  | st, acc, c :: cs =>
    if st.esc then scanRetValue { st with esc := false } (c :: acc) cs
    else if st.inVerb then
      if c == dq then
        match cs with
        | c2 :: cs2 =>
          if c2 == dq then scanRetValue st (c2 :: c :: acc) cs2
          else scanRetValue { st with inVerb := false } (c :: acc) (c2 :: cs2)
        | [] => scanRetValue { st with inVerb := false } (c :: acc) []
      else scanRetValue st (c :: acc) cs
    else if c == bsl && (st.inStr || st.inChr) then
      scanRetValue { st with esc := true } (c :: acc) cs
    else if c == '@' then
      match cs with
      | c2 :: cs2 =>
        if c2 == dq && !st.inStr && !st.inChr then
          scanRetValue { st with inVerb := true } (c2 :: c :: acc) cs2
        else scanRetValue st (c :: acc) (c2 :: cs2)
      | [] => scanRetValue st (c :: acc) []
    else if c == dq && !st.inChr then
      scanRetValue { st with inStr := !st.inStr } (c :: acc) cs
    else if c == sqc && !st.inStr then
      scanRetValue { st with inChr := !st.inChr } (c :: acc) cs
    else if !st.inStr && !st.inChr then
      if c == '(' then scanRetValue { st with pd := st.pd + 1 } (c :: acc) cs
      else if c == ')' then scanRetValue { st with pd := st.pd - 1 } (c :: acc) cs
      else if c == obr then scanRetValue { st with bd := st.bd + 1 } (c :: acc) cs
      else if c == cbr then scanRetValue { st with bd := st.bd - 1 } (c :: acc) cs
      else if c == '[' then scanRetValue { st with kd := st.kd + 1 } (c :: acc) cs
      else if c == ']' then scanRetValue { st with kd := st.kd - 1 } (c :: acc) cs
      else if c == ';' && st.pd == 0 && st.bd == 0 && st.kd == 0 then
        some (acc.reverse, cs)
      else scanRetValue st (c :: acc) cs
    else scanRetValue st (c :: acc) cs

/-- Condition `i == 0 or not method_body[i-1].isalnum()` on the character
before a candidate `return` keyword. -/
def prevNotAlnum : Option Char → Bool
  | none => true
  | some p => !p.isAlphanum

/-- Outer while-loop of fix_cs1998_v2.py lines 90-186 for `Task<T>` methods:
copy characters, and at each `return` keyword (preceded by a non-alphanumeric
character and followed by whitespace) find the statement's semicolon with
`scanRetValue`; wrap the stripped value in `Task.FromResult(...)` unless the
value already contains that substring, in which case the original slice is
kept verbatim.  If the semicolon search runs off the end of the input, the
remainder (from the `return` keyword on) is dropped, as in the Python code. -/
def rewriteReturnsAux : Nat → Option Char → List Char → List Char
  | 0, _, l => l
  | fuel + 1, prev, 'r' :: 'e' :: 't' :: 'u' :: 'r' :: 'n' :: d :: rest =>
    if prevNotAlnum prev && pyIsSpace d then
      let ws := (d :: rest).takeWhile pyIsSpace
      let afterWs := (d :: rest).dropWhile pyIsSpace
      match scanRetValue retSt0 [] afterWs with
      | some (v, rest2) =>
        let sv := pyStrip v
        if containsSub taskFromResultChars sv then
          ("return".data ++ ws ++ v ++ [';']) ++ rewriteReturnsAux fuel (some ';') rest2
        else
          ("return Task.FromResult(".data ++ sv ++ ");".data)
            ++ rewriteReturnsAux fuel (some ';') rest2
      | none => []
    else
      'r' :: rewriteReturnsAux fuel (some 'r') ('e' :: 't' :: 'u' :: 'r' :: 'n' :: d :: rest)
  | fuel + 1, _, c :: cs => c :: rewriteReturnsAux fuel (some c) cs
  | _ + 1, _, [] => []

/-- Whole-body return rewriting for `Task<T>` shapes. -/
def rewriteReturns (body : List Char) : List Char :=
  rewriteReturnsAux (body.length + 1) none body

/-- Model of `re.sub(r'\breturn\s*;', 'return Task.CompletedTask;', body)`
(fix_cs1998_v2.py lines 190-194 and fix_cs1998.py line 167): each
word-boundary `return` followed by optional whitespace and a semicolon is
replaced by the sentinel-complete return. -/
def subBareReturnAux : Nat → Bool → List Char → List Char
  | 0, _, l => l
  | fuel + 1, wb, 'r' :: 'e' :: 't' :: 'u' :: 'r' :: 'n' :: rest =>
    if wb then 'r' :: subBareReturnAux fuel true ('e' :: 't' :: 'u' :: 'r' :: 'n' :: rest)
    else
      match rest.dropWhile pyIsSpace with
      | ';' :: rest2 => "return Task.CompletedTask;".data ++ subBareReturnAux fuel false rest2
      | _ => 'r' :: subBareReturnAux fuel true ('e' :: 't' :: 'u' :: 'r' :: 'n' :: rest)
  | fuel + 1, _, c :: cs => c :: subBareReturnAux fuel (isWordChar c) cs
  | _ + 1, _, [] => []

/-- Whole-text bare-return substitution. -/
def subBareReturn (body : List Char) : List Char :=
  subBareReturnAux (body.length + 1) false body

/-- Python `str.splitlines(keepends=True)` on its ASCII line terminators
(`\n`, `\r`, `\r\n`, `\x0b`, `\x0c`); the inputs in this development only
use `\n`. -/
def splitLinesKeepAux : List Char → List Char → List (List Char)
  | cur, [] => if cur.isEmpty then [] else [cur.reverse]
  | cur, '\r' :: '\n' :: rest => (cur.reverse ++ ['\r', '\n']) :: splitLinesKeepAux [] rest
  | cur, c :: rest =>
    if c == '\n' || c == '\r' || c == '\x0b' || c == '\x0c' then
      (cur.reverse ++ [c]) :: splitLinesKeepAux [] rest
    else splitLinesKeepAux (c :: cur) rest

/-- Split a character buffer into lines, keeping the line terminators. -/
def splitLinesKeep (l : List Char) : List (List Char) :=
  splitLinesKeepAux [] l

/-- `fix_async_method(file_path, line_num)` of fix_cs1998_v2.py as a pure
function on the file's line list.  `none` models `return False` before any
write (line number out of range, or no `async` substring on the flagged
line); `some` is the file content written back on success.  Steps, in
source order: bounds check; `async` substring check; remove the `\basync\s+`
matches from the flagged line; classify the (already rewritten) signature
line; locate the method end with `find_method_end`; join the body lines;
rewrite returns according to the shape; re-split and splice the body back. -/
def fix_async_method_v2 (lines : List String) (lineNum : Nat) : Option (List String) :=
  if lineNum < 1 ∨ lines.length < lineNum then none
  else if containsSub asyncChars (lines.getD (lineNum - 1) "").data = false then none
  else
    let lineIdx := lineNum - 1
    let lines1 := lines.set lineIdx (removeAsync (lines.getD lineIdx ""))
    let sigLine := (lines1.getD lineIdx "").data
    let returnsTaskT := existsTaskGeneric sigLine || existsValueTaskGeneric sigLine
    let returnsPlainTask := containsSub taskSpaceChars sigLine && !returnsTaskT
    let methodEnd := find_method_end lines1 lineIdx
    let methodBody := (String.join ((lines1.drop lineIdx).take (methodEnd + 1 - lineIdx))).data
    let newBody :=
      if returnsTaskT then rewriteReturns methodBody
      else if returnsPlainTask then subBareReturn methodBody
      else methodBody
    some (lines1.take lineIdx ++ (splitLinesKeep newBody).map String.mk
      ++ lines1.drop (methodEnd + 1))

/-- Group (and rest after the semicolon) for the lazy part `(.+?);` of the
return regexes: take at least one non-newline character, then find the
first semicolon with no newline before it. -/
def scanSemiGroupRest : List Char → List Char → Option (List Char × List Char)
  | _, [] => none
  | acc, c :: cs =>
    if c == ';' then some (acc.reverse, cs)
    else if c == '\n' then none
    else scanSemiGroupRest (c :: acc) cs

/-- Lazy `(.+?);` match at the head of the list. -/
def lazyGroupSemiRest : List Char → Option (List Char × List Char)
  | [] => none
  | c :: cs => if c == '\n' then none else scanSemiGroupRest [c] cs

/-- Backtracking over the greedy `\s+` of `\breturn\s+(.+?);`: try the
whitespace-run lengths from `m` down to 1, first success wins (Python's
regex engine backtracks the greedy `\s+` from longest to shortest). -/
def tryWsGroupRest : Nat → List Char → Option (List Char × List Char)
  | 0, _ => none
  | m + 1, t =>
    match lazyGroupSemiRest (t.drop (m + 1)) with
    | some r => some r
    | none => tryWsGroupRest m t

/-- Model of `re.search(r'\breturn\s+(.+?);', line)`, returning the captured
group of the leftmost match. -/
def returnSearchAux : Nat → Bool → List Char → Option (List Char)
  | 0, _, _ => none
  | fuel + 1, wb, 'r' :: 'e' :: 't' :: 'u' :: 'r' :: 'n' :: rest =>
    if wb then returnSearchAux fuel true ('e' :: 't' :: 'u' :: 'r' :: 'n' :: rest)
    else
      match tryWsGroupRest (wsRunLen rest) rest with
      | some r => some r.1
      | none => returnSearchAux fuel true ('e' :: 't' :: 'u' :: 'r' :: 'n' :: rest)
  | fuel + 1, _, c :: cs => returnSearchAux fuel (isWordChar c) cs
  | _ + 1, _, [] => none

/-- Captured group of the leftmost `\breturn\s+(.+?);` match, if any. -/
def returnSearch (l : List Char) : Option (List Char) :=
  returnSearchAux (l.length + 1) false l

/-- Model of `re.search(r'\breturn\s*;', line) is not None`. -/
def bareReturnFoundAux : Nat → Bool → List Char → Bool
  | 0, _, _ => false
  | fuel + 1, wb, 'r' :: 'e' :: 't' :: 'u' :: 'r' :: 'n' :: rest =>
    if !wb && (match rest.dropWhile pyIsSpace with | ';' :: _ => true | _ => false) then true
    else bareReturnFoundAux fuel true ('e' :: 't' :: 'u' :: 'r' :: 'n' :: rest)
  | fuel + 1, _, c :: cs => bareReturnFoundAux fuel (isWordChar c) cs
  | _ + 1, _, [] => false

/-- Whether the line contains a `\breturn\s*;` match. -/
def bareReturnFound (l : List Char) : Bool :=
  bareReturnFoundAux (l.length + 1) false l

/-- Model of
`re.sub(r'\breturn\s+(.+?);', r'return Task.FromResult(\1);', line)`
(fix_cs1998.py lines 155-159): every match is replaced, scanning resuming
after each replaced span. -/
def subReturnWrapAux : Nat → Bool → List Char → List Char
  | 0, _, l => l
  | fuel + 1, wb, 'r' :: 'e' :: 't' :: 'u' :: 'r' :: 'n' :: rest =>
    if wb then 'r' :: subReturnWrapAux fuel true ('e' :: 't' :: 'u' :: 'r' :: 'n' :: rest)
    else
      match tryWsGroupRest (wsRunLen rest) rest with
      | some r =>
        "return Task.FromResult(".data ++ r.1 ++ ");".data ++ subReturnWrapAux fuel false r.2
      | none => 'r' :: subReturnWrapAux fuel true ('e' :: 't' :: 'u' :: 'r' :: 'n' :: rest)
  | fuel + 1, _, c :: cs => c :: subReturnWrapAux fuel (isWordChar c) cs
  | _ + 1, _, [] => []

/-- Whole-line wrapping substitution of fix_cs1998.py. -/
def subReturnWrap (l : List Char) : List Char :=
  subReturnWrapAux (l.length + 1) false l

/-- Model of `re.match(r'\s*return\s*;', line) is not None`: from the start
of the line, optional whitespace, the literal `return`, optional
whitespace, then a semicolon. -/
def matchBareReturnStart (l : List Char) : Bool :=
  match l.dropWhile pyIsSpace with
  | 'r' :: 'e' :: 't' :: 'u' :: 'r' :: 'n' :: rest =>
    match rest.dropWhile pyIsSpace with
    | ';' :: _ => true
    | _ => false
  | _ => false

/-- Lexical state of `find_method_body`'s per-character loop
(fix_cs1998.py, lines 37-45). -/
structure V1ScanSt where
  inStr : Bool
  inChr : Bool
  inSingle : Bool
  inMulti : Bool
  esc : Bool
  count : Int
  found : Bool

/-- Initial state of `find_method_body`'s scan. -/
def v1St0 : V1ScanSt := ⟨false, false, false, false, false, 0, false⟩

/-- Character loop of `find_method_body` over one line (fix_cs1998.py lines
51-94), with the same guard order as the Python code: escape flag,
backslash, `/*` open, `*/` close, `//` (which breaks out of the line),
comment skip, quote toggles, then brace counting.  The two-character
lookaheads only fire when a next character exists on the line. -/
def v1Chars : V1ScanSt → List Char → V1ScanSt
  | st, [] => st
  | st, c :: cs =>
    if st.esc then v1Chars { st with esc := false } cs
    else if c == bsl && (st.inStr || st.inChr) then v1Chars { st with esc := true } cs
    else if !st.inStr && !st.inChr && !st.inSingle && c == '/'
        && (match cs with | c2 :: _ => c2 == '*' | [] => false) then
      v1Chars { st with inMulti := true } cs
    else if !st.inStr && !st.inChr && !st.inSingle && st.inMulti && c == '*'
        && (match cs with | c2 :: _ => c2 == '/' | [] => false) then
      v1Chars { st with inMulti := false } cs
    else if !st.inStr && !st.inChr && !st.inMulti && c == '/'
        && (match cs with | c2 :: _ => c2 == '/' | [] => false) then
      { st with inSingle := true }
    else if st.inSingle || st.inMulti then v1Chars st cs
    else if c == dq && !st.inChr then v1Chars { st with inStr := !st.inStr } cs
    else if c == sqc && !st.inStr then v1Chars { st with inChr := !st.inChr } cs
    else if !st.inStr && !st.inChr then
      if c == obr then v1Chars { st with found := true, count := st.count + 1 } cs
      else if c == cbr then v1Chars { st with count := st.count - 1 } cs
      else v1Chars st cs
    else v1Chars st cs

/-- Line loop of `find_method_body` (fix_cs1998.py lines 47-113): after each
line the single-line-comment flag is reset; while the method's braces are
open, the line is searched for a return statement (value returns first,
then bare returns); when the count returns to zero the loop breaks with
that line as the end index (`Sum.inl`-like, returned through the `Option`). -/
def fmbV1Aux : List String → Nat → V1ScanSt → List (Nat × String) → Option Nat × List (Nat × String)
  | [], _, _, acc => (none, acc.reverse)
  | l :: ls, i, st, acc =>
    let st1 := v1Chars st l.data
    let st2 := { st1 with inSingle := false }
    if st2.found && st2.count > 0 then
      let acc2 :=
        match returnSearch l.data with
        | some g => (i, String.mk (pyStrip g)) :: acc
        | none => if bareReturnFound l.data then (i, "") :: acc else acc
      fmbV1Aux ls (i + 1) st2 acc2
    else if st2.found && st2.count == 0 then (some i, acc.reverse)
    else fmbV1Aux ls (i + 1) st2 acc

/-- `find_method_body(lines, start_idx)` of fix_cs1998.py: scan at most 200
lines from `startIdx`; return the start index, the end index (the line
whose closing brace balances the method, or `startIdx` when the window is
exhausted without finding it), and the collected `(line, value)` return
statements. -/
def find_method_body (lines : List String) (startIdx : Nat) :
    Nat × Nat × List (Nat × String) :=
  let r := fmbV1Aux ((lines.drop startIdx).take 200) startIdx v1St0 []
  (startIdx, r.1.getD startIdx, r.2)

/-- One iteration of the `Task<T>` rewrite loop of fix_cs1998.py lines
152-160: skip the line when it already contains `Task.FromResult`,
otherwise apply the wrapping substitution to it. -/
def wrapReturnLineAt (ls : List String) (idx : Nat) : List String :=
  if containsSub taskFromResultChars (ls.getD idx "").data then ls
  else ls.set idx (String.mk (subReturnWrap (ls.getD idx "").data))

/-- One iteration of the plain-`Task` rewrite loop of fix_cs1998.py lines
164-168: only lines matching `\s*return\s*;` from the start are replaced
by the sentinel-complete return. -/
def bareReturnLineAt (ls : List String) (idx : Nat) : List String :=
  if matchBareReturnStart (ls.getD idx "").data then
    ls.set idx (String.mk (subBareReturn (ls.getD idx "").data))
  else ls

/-- `fix_async_method(file_path, line_num)` of fix_cs1998.py as a pure
function on the file's line list: bounds check, `async` substring check,
classification on the original signature line, `find_method_body` on the
original lines, signature replacement, then the per-return-line rewrite
loops in reversed collection order. -/
def fix_async_method_v1 (lines : List String) (lineNum : Nat) : Option (List String) :=
  if lineNum < 1 ∨ lines.length < lineNum then none
  else if containsSub asyncChars (lines.getD (lineNum - 1) "").data = false then none
  else
    let lineIdx := lineNum - 1
    let originalLine := lines.getD lineIdx ""
    let returnsTaskT := existsTaskGeneric originalLine.data || existsValueTaskGeneric originalLine.data
    let returnsPlainTask := containsSub taskSpaceChars originalLine.data && !returnsTaskT
    let rets := (find_method_body lines lineIdx).2.2
    let lines1 := lines.set lineIdx (removeAsync originalLine)
    let lines2 :=
      if returnsTaskT then rets.reverse.foldl (fun ls p => wrapReturnLineAt ls p.1) lines1
      else if returnsPlainTask then rets.reverse.foldl (fun ls p => bareReturnLineAt ls p.1) lines1
      else lines1
    some lines2

/-- Characters of the marker checked by
`'pragma warning disable CS1998' in lines[line_idx - 1]`. -/
def pragmaMarkerChars : List Char := "pragma warning disable CS1998".data

/-- Pragma line built by `add_pragma_disable` for a method line: the
method line's leading-whitespace count as spaces, then the fixed pragma
comment text (fix_cs1998_pragmas.py lines 51-55). -/
def pragmaLineFor (methodLine : String) : String :=
  let indent := methodLine.data.length - (methodLine.data.dropWhile pyIsSpace).length
  String.mk (List.replicate indent ' '
    ++ "#pragma warning disable CS1998 // Async method lacks await (synchronous implementation)\n".data)

/-- `add_pragma_disable(file_path, line_num)` of fix_cs1998_pragmas.py as a
pure function: bounds check; if the preceding line already contains the
pragma marker, report success without modifying the file; otherwise insert
the pragma line immediately before the flagged line. -/
def add_pragma_disable (lines : List String) (lineNum : Nat) : Option (List String) :=
  if lineNum < 1 ∨ lines.length < lineNum then none
  else
    let lineIdx := lineNum - 1
    if 0 < lineIdx ∧ containsSub pragmaMarkerChars (lines.getD (lineIdx - 1) "").data = true then
      some lines
    else
      some (lines.take lineIdx ++ [pragmaLineFor (lines.getD lineIdx "")] ++ lines.drop lineIdx)

/-- Descending insertion used to model `sorted(line_numbers, reverse=True)`. -/
def insertDesc (n : Nat) : List Nat → List Nat
  | [] => [n]
  | m :: ms => if m ≤ n then n :: m :: ms else m :: insertDesc n ms

/-- Model of `sorted(line_numbers, reverse=True)` in the drivers
(fix_cs1998_v2.py line 240, fix_cs1998.py line 198). -/
def sortDesc : List Nat → List Nat
  | [] => []
  | n :: ns => insertDesc n (sortDesc ns)

/-- Per-file driver loop of fix_cs1998_v2.py lines 240-246: process the
flagged line numbers in descending order, keeping the current file state
when a location fails. -/
def processFileV2 (lines : List String) (locs : List Nat) : List String :=
  (sortDesc locs).foldl (fun ls n => (fix_async_method_v2 ls n).getD ls) lines

/-- Input file whose flagged method's closing brace lies 251 lines below the
flagged line, beyond the 200-line scan window of fix_cs1998.py. -/
def longMethodInput : List String :=
  "async Task<int> F() \x7b\n" :: (List.replicate 250 "x;\n" ++ ["\x7d\n"])

set_option maxHeartbeats 1000000

/-- Setting an element does not change the part of the list before it. -/
theorem takeSetEq {α : Type _} (l : List α) (i : Nat) (a : α) :
    (l.set i a).take i = l.take i := by
  induction l generalizing i with
  | nil => simp
  | cons x xs ih =>
    cases i with
    | zero => simp
    | succ j => simp [ih j]

/-- Equal `take k` prefixes give equal `getD` below `k`. -/
theorem getDOfTakeEq {α : Type _} {xs ys : List α} {k i : Nat} (d : α)
    (h : xs.take k = ys.take k) (hik : i < k) : xs.getD i d = ys.getD i d := by
  have h2 : (xs.take k)[i]? = (ys.take k)[i]? := by rw [h]
  rw [List.getElem?_take, List.getElem?_take, if_pos hik, if_pos hik] at h2
  rw [List.getD_eq_getElem?_getD, List.getD_eq_getElem?_getD, h2]

/-- A substring of the right part is a substring of the whole. -/
theorem containsSubAppendRight (nd ys : List Char) (xs : List Char)
    (h : containsSub nd ys = true) : containsSub nd (xs ++ ys) = true := by
  induction xs with
  | nil => simpa using h
  | cons x xs ih => simp [containsSub, ih]

/-- Out-of-range line numbers make `fix_async_method` (v2) fail before any write. -/
theorem fixV2OutOfRange {lines : List String} {n : Nat}
    (h : n < 1 ∨ lines.length < n) : fix_async_method_v2 lines n = none := by
  unfold fix_async_method_v2
  rw [if_pos h]

/-- Out-of-range line numbers make `fix_async_method` (v1) fail before any write. -/
theorem fixV1OutOfRange {lines : List String} {n : Nat}
    (h : n < 1 ∨ lines.length < n) : fix_async_method_v1 lines n = none := by
  unfold fix_async_method_v1
  rw [if_pos h]

/-- Out-of-range line numbers make `add_pragma_disable` fail before any write. -/
theorem pragmaOutOfRange {lines : List String} {n : Nat}
    (h : n < 1 ∨ lines.length < n) : add_pragma_disable lines n = none := by
  unfold add_pragma_disable
  rw [if_pos h]

/-- Without the `async` substring on the flagged line, v2 is a failing no-op. -/
theorem fixV2NoAsync {lines : List String} {n : Nat}
    (h : containsSub asyncChars (lines.getD (n - 1) "").data = false) :
    fix_async_method_v2 lines n = none := by
  unfold fix_async_method_v2
  by_cases hA : (n < 1 ∨ lines.length < n)
  · rw [if_pos hA]
  · rw [if_neg hA, if_pos h]

/-- Without the `async` substring on the flagged line, v1 is a failing no-op. -/
theorem fixV1NoAsync {lines : List String} {n : Nat}
    (h : containsSub asyncChars (lines.getD (n - 1) "").data = false) :
    fix_async_method_v1 lines n = none := by
  unfold fix_async_method_v1
  by_cases hA : (n < 1 ∨ lines.length < n)
  · rw [if_pos hA]
  · rw [if_neg hA, if_pos h]

/-- In range, with the `async` substring present, v2 succeeds. -/
theorem fixV2SomeOfAsync {lines : List String} {n : Nat}
    (h1 : ¬(n < 1 ∨ lines.length < n))
    (h2 : ¬ containsSub asyncChars (lines.getD (n - 1) "").data = false) :
    (fix_async_method_v2 lines n).isSome = true := by
  unfold fix_async_method_v2
  rw [if_neg h1, if_neg h2]
  rfl

/-- In range, with the `async` substring present, v1 succeeds. -/
theorem fixV1SomeOfAsync {lines : List String} {n : Nat}
    (h1 : ¬(n < 1 ∨ lines.length < n))
    (h2 : ¬ containsSub asyncChars (lines.getD (n - 1) "").data = false) :
    (fix_async_method_v1 lines n).isSome = true := by
  unfold fix_async_method_v1
  rw [if_neg h1, if_neg h2]
  rfl

/-- In range, `add_pragma_disable` always succeeds. -/
theorem pragmaSomeOfInRange {lines : List String} {n : Nat}
    (h1 : ¬(n < 1 ∨ lines.length < n)) :
    (add_pragma_disable lines n).isSome = true := by
  unfold add_pragma_disable
  rw [if_neg h1]
  dsimp only
  split <;> rfl

/-- A successful v2 fix only rewrites from the flagged line down: the lines
before the flagged line are unchanged. -/
theorem fixV2Frame (lines out : List String) (n : Nat)
    (h : fix_async_method_v2 lines n = some out) :
    out.take (n - 1) = lines.take (n - 1) := by
  have hr : ¬(n < 1 ∨ lines.length < n) := by
    intro hc
    rw [fixV2OutOfRange hc] at h
    exact Option.noConfusion h
  simp only [fix_async_method_v2] at h
  rw [if_neg hr] at h
  split at h
  · exact Option.noConfusion h
  · rw [Option.some_inj] at h
    subst h
    have hlen : (List.take (n - 1)
        (lines.set (n - 1) (removeAsync (lines.getD (n - 1) "")))).length = n - 1 := by
      rw [List.length_take, List.length_set]
      omega
    rw [List.take_append_of_le_length (by rw [List.length_append, hlen]; omega),
      List.take_append_of_le_length (by rw [hlen]), List.take_take]
    simp only [Nat.min_self]
    exact takeSetEq lines (n - 1) (removeAsync (lines.getD (n - 1) ""))

/-- Membership in the descending insertion. -/
theorem memInsertDesc {x n : Nat} {l : List Nat} :
    x ∈ insertDesc n l ↔ x = n ∨ x ∈ l := by
  induction l with
  | nil => simp [insertDesc]
  | cons m ms ih =>
    simp only [insertDesc]
    split
    · simp [List.mem_cons]
    · simp only [List.mem_cons, ih]
      tauto

/-- Descending insertion preserves descending sortedness. -/
theorem insertDescSorted {n : Nat} {l : List Nat} (h : l.Pairwise (· ≥ ·)) :
    (insertDesc n l).Pairwise (· ≥ ·) := by
  induction l with
  | nil => simp [insertDesc]
  | cons m ms ih =>
    rcases List.pairwise_cons.mp h with ⟨hm, hms⟩
    simp only [insertDesc]
    split
    · rename_i hmn
      refine List.pairwise_cons.mpr ⟨?_, h⟩
      intro a ha
      rcases List.mem_cons.mp ha with rfl | ha
      · exact hmn
      · exact le_trans (hm a ha) hmn
    · rename_i hmn
      refine List.pairwise_cons.mpr ⟨?_, ih hms⟩
      intro a ha
      rcases memInsertDesc.mp ha with rfl | ha
      · omega
      · exact hm a ha

/-- Descending insertion is a permutation of consing. -/
theorem insertDescPerm (n : Nat) (l : List Nat) : (insertDesc n l).Perm (n :: l) := by
  induction l with
  | nil => exact List.Perm.refl _
  | cons m ms ih =>
    simp only [insertDesc]
    split
    · exact List.Perm.refl _
    · exact (ih.cons m).trans (List.Perm.swap n m ms)

/-- The modelled `sorted(..., reverse=True)` permutes its input. -/
theorem sortDescPerm (l : List Nat) : (sortDesc l).Perm l := by
  induction l with
  | nil => exact List.Perm.refl _
  | cons n ns ih => exact (insertDescPerm n (sortDesc ns)).trans (ih.cons n)

/-- The modelled `sorted(..., reverse=True)` is descending. -/
theorem sortDescSorted (l : List Nat) : (sortDesc l).Pairwise (· ≥ ·) := by
  induction l with
  | nil => simp [sortDesc]
  | cons n ns ih => exact insertDescSorted ih

/-- On duplicate-free input the modelled sort is strictly descending. -/
theorem sortDescPairwiseGt {l : List Nat} (h : l.Nodup) :
    (sortDesc l).Pairwise (· > ·) := by
  have h1 := sortDescSorted l
  have h2 : (sortDesc l).Nodup := (sortDescPerm l).nodup_iff.mpr h
  exact ((h1.and h2).imp (fun hab => by omega))

/-- C1 counterexample: a closing brace inside a string literal is counted by
`find_method_end` and moves the located method boundary (from line 3 up to
line 1), so the top-level `return 1;` below the literal is left unwrapped by
the whole fix — the engine does treat a brace inside a literal as
structural, contradicting the claim. -/
theorem c1_literal_brace_moves_boundary :
    find_method_end ["Task<int> F() \x7b\n", "    var s = \"\x7d\";\n",
      "    return 1;\n", "\x7d\n"] 0 = 1
    ∧ find_method_end ["Task<int> F() \x7b\n", "    var s = \"x\";\n",
      "    return 1;\n", "\x7d\n"] 0 = 3
    ∧ fix_async_method_v2 ["async Task<int> F() \x7b\n", "    var s = \"\x7d\";\n",
        "    return 1;\n", "\x7d\n"] 1
      = some ["Task<int> F() \x7b\n", "    var s = \"\x7d\";\n",
        "    return 1;\n", "\x7d\n"] := by
  decide

/-- C1 amended: the semicolon scan inside the return-statement rewriter does
respect string literals, so the claim's concrete scenario holds: a
`Task<T>` method whose body is `return "a { b; } c";` is rewritten to
exactly `return Task.FromResult("a { b; } c");`, nothing inside the literal
changed; but the method-boundary locator and the treatment of comments have
no such literal-safety. -/
theorem c1_string_literal_scenario_rewrite :
    fix_async_method_v2 ["async Task<string> F()\n", "\x7b\n",
        "    return \"a \x7b b; \x7d c\";\n", "\x7d\n"] 1
      = some ["Task<string> F()\n", "\x7b\n",
        "    return Task.FromResult(\"a \x7b b; \x7d c\");\n", "\x7d\n"] := by
  decide

/-- C2 counterexample: a top-level `return Foo(Task.FromResult(1));` is not
an already-wrapped return, yet the fix leaves it unchanged because the
wrap guard is a substring test on the value, so not every top-level
`return expr;` becomes `return Task.FromResult(expr);`. -/
theorem c2_substring_guard_skips_unwrapped_return :
    fix_async_method_v2 ["async Task<int> F() \x7b\n",
        "    return Foo(Task.FromResult(1));\n", "\x7d\n"] 1
      = some ["Task<int> F() \x7b\n", "    return Foo(Task.FromResult(1));\n", "\x7d\n"]
    ∧ fix_async_method_v2 ["async Task<int> F() \x7b\n",
        "    return Foo(Task.FromResult(1));\n", "\x7d\n"] 1
      ≠ some ["Task<int> F() \x7b\n",
        "    return Task.FromResult(Foo(Task.FromResult(1)));\n", "\x7d\n"] := by
  decide

/-- C2 amended: on the spec scenario the fix removes the async marker and
wraps both returns (each exactly once), and a second run on the produced
file is rejected without modification because the `async` substring is
gone; in general a return whose value contains the substring
`Task.FromResult` anywhere is left unchanged. -/
theorem c2_wrappedvalue_scenario_rewrite :
    fix_async_method_v2 ["async Task<int> Compute()\n", "\x7b\n",
        "    if (x) \x7b return 1; \x7d\n", "    return 2;\n", "\x7d\n"] 1
      = some ["Task<int> Compute()\n", "\x7b\n",
        "    if (x) \x7b return Task.FromResult(1); \x7d\n",
        "    return Task.FromResult(2);\n", "\x7d\n"]
    ∧ fix_async_method_v2 ["Task<int> Compute()\n", "\x7b\n",
        "    if (x) \x7b return Task.FromResult(1); \x7d\n",
        "    return Task.FromResult(2);\n", "\x7d\n"] 1 = none := by
  decide

/-- C3 counterexample: a return inside a nested local function (its brace
depth exceeds the method's baseline) is rewritten too: the fix wraps
`return 5;` inside `int G() { ... }`, so the rewrite is not limited to the
method's own top-level depth. -/
theorem c3_nested_scope_return_rewritten :
    fix_async_method_v2 ["async Task<int> F()\n", "\x7b\n",
        "    int G() \x7b return 5; \x7d\n", "    return 2;\n", "\x7d\n"] 1
      = some ["Task<int> F()\n", "\x7b\n",
        "    int G() \x7b return Task.FromResult(5); \x7d\n",
        "    return Task.FromResult(2);\n", "\x7d\n"]
    ∧ fix_async_method_v2 ["async Task<int> F()\n", "\x7b\n",
        "    int G() \x7b return 5; \x7d\n", "    return 2;\n", "\x7d\n"] 1
      ≠ some ["Task<int> F()\n", "\x7b\n",
        "    int G() \x7b return 5; \x7d\n",
        "    return Task.FromResult(2);\n", "\x7d\n"] := by
  decide

/-- C3 amended: the v2 rewriter finds and rewrites return statements at
every brace depth inside the located method span — here both the return
inside a lambda body and the top-level return are wrapped; brace depth is
only tracked relative to each return's own value while searching for its
semicolon. -/
theorem c3_rewrite_ignores_brace_depth :
    fix_async_method_v2 ["async Task<int> H()\n", "\x7b\n",
        "    var f = () => \x7b return 7; \x7d;\n", "    return 2;\n", "\x7d\n"] 1
      = some ["Task<int> H()\n", "\x7b\n",
        "    var f = () => \x7b return Task.FromResult(7); \x7d;\n",
        "    return Task.FromResult(2);\n", "\x7d\n"] := by
  decide

/-- C4 counterexample: a flagged line that contains no async marker (no
standalone `async` keyword: `masync` is only part of an identifier) is not
a no-op — the operation still proceeds, because the code's check is a
substring test, and it modifies the file. -/
theorem c4_no_marker_but_file_modified :
    hasAsyncMarker "Task F(int masync) \x7b\n" = false
    ∧ fix_async_method_v2 ["Task F(int masync) \x7b\n", "    return;\n", "\x7d\n"] 1
      = some ["Task F(int masync) \x7b\n", "    return Task.CompletedTask;\n", "\x7d\n"]
    ∧ ["Task F(int masync) \x7b\n", "    return;\n", "\x7d\n"]
      ≠ ["Task F(int masync) \x7b\n", "    return Task.CompletedTask;\n", "\x7d\n"] := by
  decide

/-- C4 amended: the fix is a failing no-op (no write) exactly for flagged
lines whose text does not contain the substring `async`; consequently a
second run is a no-op whenever the first run's rewritten signature line no
longer contains that substring.  A line that retains `async` only inside a
longer identifier is reprocessed. -/
theorem c4_no_async_substring_no_op (lines : List String) (n : Nat)
    (h : containsSub asyncChars (lines.getD (n - 1) "").data = false) :
    fix_async_method_v2 lines n = none ∧ fix_async_method_v1 lines n = none :=
  ⟨fixV2NoAsync h, fixV1NoAsync h⟩

/-- C4 witness: a concrete already-fixed file on which the second run is a
rejected no-op. -/
theorem c4_no_async_substring_no_op_witness :
    fix_async_method_v2 ["Task<int> B() \x7b return 1; \x7d\n"] 1 = none :=
  (c4_no_async_substring_no_op ["Task<int> B() \x7b return 1; \x7d\n"] 1 (by decide)).1

/-- C5 counterexample: in a `WrappedVoid` (bare `Task`) method a
value-carrying `return 1;` is not reported and the location is not
skipped — the fix succeeds, removes the async marker and silently leaves
the mismatched return unchanged. -/
theorem c5_value_return_not_skipped :
    fix_async_method_v2 ["async Task F() \x7b\n", "    return 1;\n", "\x7d\n"] 1
      = some ["Task F() \x7b\n", "    return 1;\n", "\x7d\n"]
    ∧ fix_async_method_v2 ["async Task F() \x7b\n", "    return 1;\n", "\x7d\n"] 1
      ≠ none := by
  decide

/-- C5 amended: for a `WrappedVoid` method each bare `return;` becomes
`return Task.CompletedTask;` (the spec scenario), while a value-carrying
return is left unchanged with the operation still reporting success — no
signature-mismatch detection exists. -/
theorem c5_bare_return_sentinel_rewrite :
    fix_async_method_v2 ["async Task Ping() \x7b\n", "    return;\n", "\x7d\n"] 1
      = some ["Task Ping() \x7b\n", "    return Task.CompletedTask;\n", "\x7d\n"]
    ∧ fix_async_method_v2 ["async Task G() \x7b\n", "    return 42;\n", "\x7d\n"] 1
      = some ["Task G() \x7b\n", "    return 42;\n", "\x7d\n"] := by
  decide

/-- C6 counterexample: on an input whose brace count goes negative (a `}`
inside a comment on the signature line is counted before any `{`), the scan
reaches minimum depth `-1` yet no error is raised and the file is not
skipped: the fix succeeds and rewrites the method. -/
theorem c6_negative_depth_no_error :
    braceCountMin ["Task<int> F() // \x7d\n", "\x7b\n", "    return 1;\n", "\x7d\n"] 0 = -1
    ∧ fix_async_method_v2 ["async Task<int> F() // \x7d\n", "\x7b\n",
        "    return 1;\n", "\x7d\n"] 1
      = some ["Task<int> F() // \x7d\n", "\x7b\n",
        "    return Task.FromResult(1);\n", "\x7d\n"] := by
  decide

/-- C6 amended: the brace counter may go negative; the scan just continues
with the negative counter and, when no matching close is found, falls back
to the last line index as the boundary, with no fatal condition of any
kind. -/
theorem c6_negative_depth_scan_continues :
    braceCountMin ["\x7d\n", "\x7b\n", "\x7d\n"] 0 = -1
    ∧ find_method_end ["\x7d\n", "\x7b\n", "\x7d\n"] 0 = 2 := by
  decide

/-- C7 counterexample: with the method's closing brace 251 lines below the
flagged line, v1's 200-line window is exhausted and `find_method_body`
returns the flagged line itself as the boundary — a boundary, not a fatal
"method too long" report — and the fix still succeeds on the file; v2's
`find_method_end` has no window at all and reaches line 251. -/
theorem c7_window_exhaustion_returns_boundary :
    find_method_body longMethodInput 0 = (0, 0, [])
    ∧ find_method_end longMethodInput 0 = 251
    ∧ fix_async_method_v1 longMethodInput 1
      = some ("Task<int> F() \x7b\n" :: (List.replicate 250 "x;\n" ++ ["\x7d\n"])) := by
  decide

/-- C7 amended: v1's method-boundary scan examines at most the 200 lines
following the flagged line — its whole result (boundary and collected
return statements) depends only on `lines.take (s + 200)` — and on window
exhaustion it returns the flagged line as the boundary without reporting;
v2's scan is unbounded within the file. -/
theorem c7_v1_scan_window_200 (lines : List String) (s : Nat) :
    find_method_body lines s = find_method_body (lines.take (s + 200)) s := by
  unfold find_method_body
  have h : ((lines.take (s + 200)).drop s).take 200 = (lines.drop s).take 200 := by
    rw [List.drop_take]
    have h2 : s + 200 - s = 200 := by omega
    rw [h2, List.take_take]
    simp
  rw [h]

/-- C8: the driver's per-file order is strictly descending on duplicate-free
line numbers, and a successful fix at line `l2` leaves every line above it
untouched, so the stored line number of a not-yet-processed location
`l1 < l2` is still valid (its line content is unchanged) when it is
reached. -/
theorem c8_descending_order_preserves_lines_above
    (locs : List Nat) (hnd : locs.Nodup)
    (lines out : List String) (l1 l2 : Nat) (h1 : 1 ≤ l1) (hlt : l1 < l2)
    (hfix : fix_async_method_v2 lines l2 = some out) :
    (sortDesc locs).Pairwise (· > ·)
    ∧ out.take (l2 - 1) = lines.take (l2 - 1)
    ∧ out.getD (l1 - 1) "" = lines.getD (l1 - 1) "" := by
  have hframe := fixV2Frame lines out l2 hfix
  exact ⟨sortDescPairwiseGt hnd, hframe, getDOfTakeEq "" hframe (by omega)⟩

/-- C8 witness: two flagged locations 2 < 5; fixing line 5 keeps line 2's
content, and the driver's order on the location list is strictly
descending. -/
theorem c8_descending_order_preserves_lines_above_witness :
    [2, 5].Nodup ∧ (1 : Nat) ≤ 2 ∧ 2 < 5
    ∧ ((sortDesc [2, 5]).Pairwise (· > ·)
      ∧ (["a\n", "b\n", "c\n", "d\n",
          "Task<int> F() \x7b return Task.FromResult(1); \x7d\n"].take 4
        = ["a\n", "b\n", "c\n", "d\n",
          "async Task<int> F() \x7b return 1; \x7d\n"].take 4)
      ∧ (["a\n", "b\n", "c\n", "d\n",
          "Task<int> F() \x7b return Task.FromResult(1); \x7d\n"].getD 1 ""
        = ["a\n", "b\n", "c\n", "d\n",
          "async Task<int> F() \x7b return 1; \x7d\n"].getD 1 "")) :=
  ⟨by decide, by decide, by decide,
    c8_descending_order_preserves_lines_above [2, 5] (by decide)
      ["a\n", "b\n", "c\n", "d\n", "async Task<int> F() \x7b return 1; \x7d\n"]
      ["a\n", "b\n", "c\n", "d\n", "Task<int> F() \x7b return Task.FromResult(1); \x7d\n"]
      2 5 (by decide) (by decide) (by decide)⟩

/-- C9: a flagged line number outside the file's current line count (below 1
or above the number of lines) makes all three operations fail without
producing a file to write; inside the range this bounds check is the only
location validation: the pragma insertion always succeeds, and the two
rewriting fixes fail exactly when the flagged line has no `async`
substring (the already-fixed no-op, not a location validation). -/
theorem c9_line_number_validation (lines : List String) (n : Nat) :
    ((n < 1 ∨ lines.length < n) →
      fix_async_method_v2 lines n = none ∧ fix_async_method_v1 lines n = none
        ∧ add_pragma_disable lines n = none)
    ∧ (1 ≤ n → n ≤ lines.length →
      (add_pragma_disable lines n).isSome = true
      ∧ (fix_async_method_v2 lines n = none
          ↔ containsSub asyncChars (lines.getD (n - 1) "").data = false)
      ∧ (fix_async_method_v1 lines n = none
          ↔ containsSub asyncChars (lines.getD (n - 1) "").data = false)) := by
  constructor
  · intro h
    exact ⟨fixV2OutOfRange h, fixV1OutOfRange h, pragmaOutOfRange h⟩
  · intro ha hb
    have hr : ¬(n < 1 ∨ lines.length < n) := by omega
    refine ⟨pragmaSomeOfInRange hr, ⟨?_, ?_⟩, ?_, ?_⟩
    · intro hnone
      by_contra hc
      have hs := fixV2SomeOfAsync hr hc
      rw [hnone] at hs
      simp at hs
    · exact fun hf => fixV2NoAsync hf
    · intro hnone
      by_contra hc
      have hs := fixV1SomeOfAsync hr hc
      rw [hnone] at hs
      simp at hs
    · exact fun hf => fixV1NoAsync hf

/-- C9 witness: line 5 of a one-line file is rejected by every operation;
line 1 passes the bounds check and the pragma insertion succeeds there. -/
theorem c9_line_number_validation_witness :
    fix_async_method_v2 ["async Task<int> A() \x7b return 1; \x7d\n"] 5 = none
    ∧ fix_async_method_v1 ["async Task<int> A() \x7b return 1; \x7d\n"] 5 = none
    ∧ (add_pragma_disable ["async Task<int> A() \x7b return 1; \x7d\n"] 1).isSome = true :=
  ⟨((c9_line_number_validation ["async Task<int> A() \x7b return 1; \x7d\n"] 5).1
      (Or.inr (by decide))).1,
    ((c9_line_number_validation ["async Task<int> A() \x7b return 1; \x7d\n"] 5).1
      (Or.inr (by decide))).2.1,
    ((c9_line_number_validation ["async Task<int> A() \x7b return 1; \x7d\n"] 1).2
      (by decide) (by decide)).1⟩

/-- C10: for an in-range flagged line, if the preceding line already
contains the suppression marker the operation reports success without
modifying the file; otherwise it inserts exactly one new line — which
contains the suppression marker — immediately before the flagged line,
preserving every existing line unchanged and in order. -/
theorem c10_pragma_insert_or_noop (lines : List String) (n : Nat)
    (h1 : 1 ≤ n) (h2 : n ≤ lines.length) :
    (2 ≤ n → containsSub pragmaMarkerChars (lines.getD (n - 2) "").data = true →
      add_pragma_disable lines n = some lines)
    ∧ ((2 ≤ n → containsSub pragmaMarkerChars (lines.getD (n - 2) "").data = false) →
      add_pragma_disable lines n
        = some (lines.take (n - 1) ++ [pragmaLineFor (lines.getD (n - 1) "")]
            ++ lines.drop (n - 1))
      ∧ containsSub pragmaMarkerChars (pragmaLineFor (lines.getD (n - 1) "")).data = true) := by
  have hr : ¬(n < 1 ∨ lines.length < n) := by omega
  constructor
  · intro hn hmark
    unfold add_pragma_disable
    rw [if_neg hr]
    dsimp only
    rw [if_pos ?_]
    · exact ⟨by omega, by
        have he : n - 1 - 1 = n - 2 := by omega
        rw [he]
        exact hmark⟩
  · intro hno
    constructor
    · unfold add_pragma_disable
      rw [if_neg hr]
      dsimp only
      rw [if_neg ?_]
      rintro ⟨hpos, hmark⟩
      have hn2 : 2 ≤ n := by omega
      have he : n - 1 - 1 = n - 2 := by omega
      rw [he, hno hn2] at hmark
      exact Bool.noConfusion hmark
    · show containsSub pragmaMarkerChars
        (List.replicate _ ' '
          ++ "#pragma warning disable CS1998 // Async method lacks await (synchronous implementation)\n".data) = true
      exact containsSubAppendRight _ _ _ (by decide)

/-- C10 witness: inserting the pragma before line 1 of a one-line file. -/
theorem c10_pragma_insert_or_noop_witness :
    add_pragma_disable ["    async Task M()\n"] 1
      = some (["    async Task M()\n"].take 0
          ++ [pragmaLineFor (["    async Task M()\n"].getD 0 "")]
          ++ ["    async Task M()\n"].drop 0) :=
  ((c10_pragma_insert_or_noop ["    async Task M()\n"] 1 (by decide) (by decide)).2
    (fun h2 => absurd h2 (by decide))).1
